import Mathlib

/-!
Verification of the CacheBolt request-path engine against its specification.

The Rust sources are shallowly embedded: pure functions become Lean
functions on `Nat` / `String` / `List`, stateful handlers become explicit
state-passing functions over an environment record, and byte buffers are
`List Nat` with each entry below 256.
-/

set_option maxRecDepth 20000

namespace CacheBolt

/-- Bytes are modelled as natural numbers below 256. -/
abbrev ByteL := List Nat

-- ------------------------------------------------------------------
-- ASCII helpers (model of Rust `to_ascii_lowercase` and friends)
-- ------------------------------------------------------------------

/-- ASCII lowercase of one character, as Rust `char::to_ascii_lowercase`. -/
def asciiLowerChar (c : Char) : Char :=
  if 'A' ≤ c ∧ c ≤ 'Z' then Char.ofNat (c.toNat + 32) else c

/-- ASCII lowercase of a string, as Rust `str::to_ascii_lowercase`. -/
def asciiLower (s : String) : String := ⟨s.data.map asciiLowerChar⟩

/-- Substring test on character lists: does `pat` occur inside `l`?
Models Rust `str::contains` for our ASCII inputs. -/
def listContainsSeq (l pat : List Char) : Bool :=
  pat.isPrefixOf l ||
    (match l with
     | [] => false
     | _ :: t => listContainsSeq t pat)

/-- Substring test on strings. -/
def strContainsSub (s pat : String) : Bool := listContainsSeq s.data pat.data

-- ------------------------------------------------------------------
-- UTF-8 encoding (model of Rust `str::as_bytes`)
-- ------------------------------------------------------------------

/-- UTF-8 encoding of a single scalar value. -/
def utf8Char (c : Char) : ByteL :=
  let n := c.toNat
  if n < 128 then [n]
  else if n < 2048 then [192 ||| (n >>> 6), 128 ||| (n &&& 63)]
  else if n < 65536 then
    [224 ||| (n >>> 12), 128 ||| ((n >>> 6) &&& 63), 128 ||| (n &&& 63)]
  else
    [240 ||| (n >>> 18), 128 ||| ((n >>> 12) &&& 63),
     128 ||| ((n >>> 6) &&& 63), 128 ||| (n &&& 63)]

/-- UTF-8 bytes of a string. -/
def utf8Bytes (s : String) : ByteL := (s.data.map utf8Char).flatten

-- ------------------------------------------------------------------
-- SHA-256 (the `sha2` crate call in `hash_uri`), over Nat bytes
-- ------------------------------------------------------------------

/-- Truncation to 32 bits. -/
def w32 (x : Nat) : Nat := x % 4294967296

/-- 32-bit right rotation. -/
def rotr32 (n x : Nat) : Nat := w32 ((x >>> n) ||| (x <<< (32 - n)))

/-- SHA-256 Σ₀. -/
def bigSigma0 (x : Nat) : Nat := rotr32 2 x ^^^ rotr32 13 x ^^^ rotr32 22 x

/-- SHA-256 Σ₁. -/
def bigSigma1 (x : Nat) : Nat := rotr32 6 x ^^^ rotr32 11 x ^^^ rotr32 25 x

/-- SHA-256 σ₀. -/
def smallSigma0 (x : Nat) : Nat := rotr32 7 x ^^^ rotr32 18 x ^^^ (x >>> 3)

/-- SHA-256 σ₁. -/
def smallSigma1 (x : Nat) : Nat := rotr32 17 x ^^^ rotr32 19 x ^^^ (x >>> 10)

/-- SHA-256 Ch. -/
def chFn (e f g : Nat) : Nat := (e &&& f) ^^^ ((e ^^^ 4294967295) &&& g)

/-- SHA-256 Maj. -/
def majFn (a b c : Nat) : Nat := (a &&& b) ^^^ (a &&& c) ^^^ (b &&& c)

/-- SHA-256 round constants. -/
def K256 : List Nat :=
  [1116352408, 1899447441, 3049323471, 3921009573, 961987163,
   1508970993, 2453635748, 2870763221, 3624381080, 310598401,
   607225278, 1426881987, 1925078388, 2162078206, 2614888103,
   3248222580, 3835390401, 4022224774, 264347078, 604807628,
   770255983, 1249150122, 1555081692, 1996064986, 2554220882,
   2821834349, 2952996808, 3210313671, 3336571891, 3584528711,
   113926993, 338241895, 666307205, 773529912, 1294757372,
   1396182291, 1695183700, 1986661051, 2177026350, 2456956037,
   2730485921, 2820302411, 3259730800, 3345764771, 3516065817,
   3600352804, 4094571909, 275423344, 430227734, 506948616,
   659060556, 883997877, 958139571, 1322822218, 1537002063,
   1747873779, 1955562222, 2024104815, 2227730452, 2361852424,
   2428436474, 2756734187, 3204031479, 3329325298]

/-- SHA-256 initial hash value. -/
def H256 : List Nat :=
  [1779033703, 3144134277, 1013904242, 2773480762,
   1359893119, 2600822924, 528734635, 1541459225]

/-- Append SHA-256 padding: 0x80, zeros, 64-bit big-endian bit length. -/
def sha256Pad (msg : ByteL) : ByteL :=
  let len := msg.length
  let bitLen := len * 8
  let padZeros := (64 - (len + 9) % 64) % 64
  msg ++ [128] ++ List.replicate padZeros 0 ++
    [(bitLen >>> 56) &&& 255, (bitLen >>> 48) &&& 255, (bitLen >>> 40) &&& 255,
     (bitLen >>> 32) &&& 255, (bitLen >>> 24) &&& 255, (bitLen >>> 16) &&& 255,
     (bitLen >>> 8) &&& 255, bitLen &&& 255]

/-- Pack bytes into 32-bit big-endian words. -/
def bytesToWords : ByteL → List Nat
  | a :: b :: c :: d :: rest =>
      ((a <<< 24) ||| (b <<< 16) ||| (c <<< 8) ||| d) :: bytesToWords rest
  | _ => []

/-- Split a word list into chunks of 16 (`n` = number of chunks). -/
def chunk16 : Nat → List Nat → List (List Nat)
  | 0, _ => []
  | n + 1, ws => ws.take 16 :: chunk16 n (ws.drop 16)

/-- All 512-bit blocks of a padded message. -/
def sha256Blocks (ws : List Nat) : List (List Nat) := chunk16 (ws.length / 16) ws

/-- Extend the message schedule; `acc` holds the schedule so far, reversed. -/
def extendSched : Nat → List Nat → List Nat
  | 0, acc => acc
  | n + 1, acc =>
      let t := w32 (smallSigma1 (acc.getD 1 0) + acc.getD 6 0 +
                    smallSigma0 (acc.getD 14 0) + acc.getD 15 0)
      extendSched n (t :: acc)

/-- The 64-entry message schedule of one block. -/
def schedule (block : List Nat) : List Nat := (extendSched 48 block.reverse).reverse

/-- One SHA-256 compression round; the state is the list [a,b,c,d,e,f,g,h]. -/
def compressStep (st : List Nat) (kw : Nat × Nat) : List Nat :=
  match st with
  | [a, b, c, d, e, f, g, h] =>
      let t1 := w32 (h + bigSigma1 e + chFn e f g + kw.1 + kw.2)
      let t2 := w32 (bigSigma0 a + majFn a b c)
      [w32 (t1 + t2), a, b, c, w32 (d + t1), e, f, g]
  | _ => st

/-- Process one block: run 64 rounds and add the result to the chaining value. -/
def processBlock (h : List Nat) (block : List Nat) : List Nat :=
  let st := (K256.zip (schedule block)).foldl compressStep h
  (h.zip st).map (fun p => w32 (p.1 + p.2))

/-- SHA-256 digest (32 bytes) of a byte sequence. -/
def sha256Bytes (msg : ByteL) : ByteL :=
  let hs := (sha256Blocks (bytesToWords (sha256Pad msg))).foldl processBlock H256
  (hs.map (fun w => [(w >>> 24) &&& 255, (w >>> 16) &&& 255,
                     (w >>> 8) &&& 255, w &&& 255])).flatten

/-- Lowercase hex digit. -/
def hexDigit (n : Nat) : Char :=
  if n < 10 then Char.ofNat (48 + n) else Char.ofNat (87 + n)

/-- Lowercase hex rendering of a byte list. -/
def bytesToHex (bs : ByteL) : String :=
  ⟨(bs.map (fun b => [hexDigit (b / 16), hexDigit (b % 16)])).flatten⟩

/-- `hash_uri` from `proxy.rs`: lowercase hex of the SHA-256 of the string. -/
def hash_uri (s : String) : String := bytesToHex (sha256Bytes (utf8Bytes s))

-- ------------------------------------------------------------------
-- Fingerprint derivation (`proxy_handler`, proxy.rs lines 101-136)
-- ------------------------------------------------------------------

/-- `Config::ignored_headers_set` (config.rs): the configured names,
lowercased, plus the three built-in entries.  A `HashSet` is modelled by a
list up to membership. -/
def ignored_headers_set (configured : List String) : List String :=
  "x-bypass-cache" :: "x-refresh-cache" :: "cache-control" ::
    configured.map asciiLower

/-- The filter-and-normalize step of `proxy_handler`: keep headers whose
lowercased name is not ignored, then lowercase the kept names. -/
def headersKv (ignored : List String) (headers : List (String × String)) :
    List (String × String) :=
  (headers.filter (fun kv => !(ignored.contains (asciiLower kv.1)))).map
    (fun kv => (asciiLower kv.1, kv.2))

/-- Lexicographic comparison of character lists by code point; on UTF-8
data this is the order of Rust `str::cmp`, which compares bytes (UTF-8 is
code-point order preserving). -/
def charListLe : List Char → List Char → Bool
  | [], _ => true
  | _ :: _, [] => false
  | a :: as, b :: bs =>
      if a.toNat < b.toNat then true
      else if b.toNat < a.toNat then false
      else charListLe as bs

/-- String comparison of Rust `String::cmp`, as a total `≤` test. -/
def strLe (s t : String) : Bool := charListLe s.data t.data

/-- The comparator of `headers_kv.sort_by(|a, b| a.0.cmp(&b.0))`: compare
pairs by name only. -/
def hdrLe (a b : String × String) : Prop := strLe a.1 b.1 = true

instance : DecidableRel hdrLe := fun a b => Bool.decEq (strLe a.1 b.1) true

/-- Request headers are sorted by name only (`sort_by(|a, b| a.0.cmp(&b.0))`);
Rust `sort_by` is stable, as is `List.insertionSort`. -/
def sortHeaders (l : List (String × String)) : List (String × String) :=
  List.insertionSort hdrLe l

/-- The canonical byte-source string `uri + "|" + joined` of `proxy_handler`. -/
def mkKeySource (uri : String) (headers : List (String × String))
    (ignored : List String) : String :=
  let relevant := String.intercalate ";"
    ((sortHeaders (headersKv ignored headers)).map (fun kv => kv.1 ++ ":" ++ kv.2))
  uri ++ "|" ++ relevant

/-- The cache fingerprint of a request. -/
def fingerprint (uri : String) (headers : List (String × String))
    (ignored : List String) : String :=
  hash_uri (mkKeySource uri headers ignored)

-- ------------------------------------------------------------------
-- BypassRules (`rules/bypass.rs`)
-- ------------------------------------------------------------------

/-- `HeaderMap::get`: case-insensitive lookup of the first value for a
(lowercase) name. -/
def headerGet (headers : List (String × String)) (name : String) : Option String :=
  (headers.find? (fun kv => asciiLower kv.1 == name)).map (fun kv => kv.2)

/-- `should_bypass_cache` (rules/bypass.rs). -/
def should_bypass_cache (headers : List (String × String)) : Bool :=
  (match headerGet headers "cache-control" with
   | some v => strContainsSub (asciiLower v) "no-cache"
   | none => false) ||
  (match headerGet headers "x-bypass-cache" with
   | some v => asciiLower v == "true"
   | none => false)

-- ------------------------------------------------------------------
-- LatencyCircuit (`rules/latency.rs`); instants are Nat milliseconds
-- ------------------------------------------------------------------

/-- `Duration::from_secs(300)` in milliseconds. -/
def failoverWindowMs : Nat := 300000

/-- The LATENCY_FAILS map, as an association list. -/
abbrev LatencyMap := List (String × Nat)

/-- `HashMap::get` on the latency map. -/
def latencyLookup (m : LatencyMap) (uri : String) : Option Nat :=
  (m.find? (fun kv => kv.1 == uri)).map (fun kv => kv.2)

/-- `mark_latency_fail`: `map.insert(uri, Instant::now())`. -/
def mark_latency_fail (m : LatencyMap) (uri : String) (now : Nat) : LatencyMap :=
  (uri, now) :: m.filter (fun kv => !(kv.1 == uri))

/-- `should_failover`: an entry exists and is younger than 300 s.
`Instant::duration_since` saturates at zero, as does Nat subtraction. -/
def should_failover (m : LatencyMap) (uri : String) (now : Nat) : Bool :=
  match latencyLookup m uri with
  | some lastFail => now - lastFail < failoverWindowMs
  | none => false

-- ------------------------------------------------------------------
-- RefreshSampler (`rules/refresh.rs`)
-- ------------------------------------------------------------------

/-- `100 / percentage.max(1)` (u8 division). -/
def refreshModulus (p : Nat) : Nat := 100 / max p 1

/-- One call of `should_refresh` for a fixed key whose counter is `cnt`.
Returns the new counter and the decision; `none` models the Rust panic of
`counter % 0` when the modulus is zero. -/
def shouldRefreshStep (p cnt : Nat) : Option (Nat × Bool) :=
  if p = 0 then some (cnt, false)
  else
    let c := cnt + 1
    let m := refreshModulus p
    if m = 0 then none
    else some (c, decide (c % m = 0))

/-- State after the `n`-th `should_refresh` call for one key: the counter and
the `n`-th decision (`(0, false)` before any call). -/
def refreshTrace (p : Nat) : Nat → Option (Nat × Bool)
  | 0 => some (0, false)
  | n + 1 =>
      match refreshTrace p n with
      | none => none
      | some st => shouldRefreshStep p st.1

/-- The decision of the `n`-th `should_refresh` call for one key. -/
def refreshResult (p n : Nat) : Option Bool := (refreshTrace p n).map (fun st => st.2)

-- ------------------------------------------------------------------
-- RequestEngine (`proxy_handler` / `try_cache` / `build_response`)
-- ------------------------------------------------------------------

/-- `memory::CachedResponse`. -/
structure CachedResponse where
  body : ByteL
  headers : List (String × String)
  insertedAt : Nat
  deriving Repr, DecidableEq

/-- A successful downstream response, as seen after `forward_request`. -/
structure OriginResp where
  status : Nat
  headers : List (String × String)
  body : ByteL
  deriving Repr, DecidableEq

/-- A response as produced by the engine; the constructor records which code
path built it (`Response::from_parts` of the origin response, a
`build_response` call on cached data, or one of the literal 502 builders). -/
inductive RespModel where
  | fromOrigin (status : Nat) (headers : List (String × String)) (body : ByteL)
  | cacheHit (body : ByteL) (headers : List (String × String))
  | engine502 (msg : String)
  deriving Repr, DecidableEq

/-- `HeaderMap::remove("content-length")`: drop every value under that
(case-insensitively matched) name. -/
def removeContentLength (hs : List (String × String)) : List (String × String) :=
  hs.filter (fun kv => !(asciiLower kv.1 == "content-length"))

/-- `build_response`: status 200, default `Content-Type` when absent. -/
def build_response (body : ByteL) (headers : List (String × String)) : RespModel :=
  let hasCt := headers.any (fun kv => asciiLower kv.1 == "content-type")
  .cacheHit body
    (if hasCt then headers else headers ++ [("Content-Type", "application/octet-stream")])

/-- The environment one `proxy_handler` call runs in: the request, the shared
state it reads, and the oracles for the outside world (semaphore, origin,
clocks).  `forward` is `none` when `forward_request` returns `Err`. -/
structure ProxyEnv where
  uri : String
  headers : List (String × String)
  ignored : List String
  refreshOracle : Bool
  semAvailable : Bool
  forward : Option OriginResp
  elapsedMs : Nat
  thresholdMs : Nat
  latencyMap : LatencyMap
  t0 : Nat
  wallNow : Nat
  mem : String → Option CachedResponse
  durable : String → Option (ByteL × List (String × String))

/-- Everything one `proxy_handler` call produces: the response, the
`MEMORY_CACHE` inserts, the persistence-queue sends, whether the durable
tier was consulted, and the latency map afterwards. -/
structure ProxyOutcome where
  response : RespModel
  hotInserts : List (String × CachedResponse)
  persistSends : List (String × ByteL × List (String × String))
  durableConsulted : Bool
  latencyMap : LatencyMap

/-- `try_cache` (proxy.rs lines 262-296): memory first, then the configured
durable backend (promoting a hit into memory), else the literal 502. -/
def try_cache (env : ProxyEnv) (key : String) : ProxyOutcome :=
  match env.mem key with
  | some cached =>
      { response := build_response cached.body cached.headers
        hotInserts := []
        persistSends := []
        durableConsulted := false
        latencyMap := env.latencyMap }
  | none =>
      match env.durable key with
      | some (data, headers) =>
          { response := build_response data headers
            hotInserts := [(key, ⟨data, headers, env.wallNow⟩)]
            persistSends := []
            durableConsulted := true
            latencyMap := env.latencyMap }
      | none =>
          { response := .engine502 "Downstream error and no cache"
            hotInserts := []
            persistSends := []
            durableConsulted := true
            latencyMap := env.latencyMap }

/-- `proxy_handler` (proxy.rs lines 89-259). -/
def proxy_handler (env : ProxyEnv) : ProxyOutcome :=
  let key := fingerprint env.uri env.headers env.ignored
  let bypassCache := should_bypass_cache env.headers
  let forceRefresh := env.refreshOracle || bypassCache
  if should_failover env.latencyMap env.uri env.t0 && !forceRefresh then
    try_cache env key
  else if env.semAvailable then
    match env.forward with
    | some resp =>
        let t1 := env.t0 + env.elapsedMs
        let exceededLatency := decide (env.elapsedMs > env.thresholdMs)
        let map1 := if exceededLatency then mark_latency_fail env.latencyMap env.uri t1
                    else env.latencyMap
        let respHeaders := removeContentLength resp.headers
        let isSuccess := decide (200 ≤ resp.status) && decide (resp.status < 300)
        let fallbackActive := should_failover map1 env.uri t1
        let doStore := !bypassCache && (isSuccess && (exceededLatency || !fallbackActive))
        { response := .fromOrigin resp.status respHeaders resp.body
          hotInserts := if doStore then [(key, ⟨resp.body, respHeaders, env.wallNow⟩)] else []
          persistSends := if doStore then [(key, resp.body, respHeaders)] else []
          durableConsulted := false
          latencyMap := map1 }
    | none => try_cache env key
  else
    match env.mem key with
    | some cached =>
        { response := build_response cached.body cached.headers
          hotInserts := []
          persistSends := []
          durableConsulted := false
          latencyMap := env.latencyMap }
    | none =>
        { response := .engine502 "Too many concurrent requests and no cache available"
          hotInserts := []
          persistSends := []
          durableConsulted := false
          latencyMap := env.latencyMap }

-- ------------------------------------------------------------------
-- MemoryMonitor eviction (`memory/memory.rs`, `maybe_evict_if_needed`)
-- ------------------------------------------------------------------

/-- The LRU cache, oldest entry first (`pop_lru` removes the head). -/
abbrev LruList := List (String × CachedResponse)

/-- The `while` loop of `maybe_evict_if_needed`: each iteration re-samples
used memory (stream `samples`, cursor `i`) but keeps the `total_kib` of the
first sample; it pops the LRU-oldest entry until the percentage drops below
the threshold or the cache is empty. -/
def evictLoop (samples : Nat → Nat × Nat) (total threshold : Nat) :
    LruList → Nat → LruList × Nat
  | cache, i =>
      if (samples i).1 * 100 / total ≥ threshold then
        match cache with
        | [] => ([], i)
        | _ :: rest => evictLoop samples total threshold rest (i + 1)
      else (cache, i)

/-- `maybe_evict_if_needed`: sample once; when over threshold, run the
eviction loop (whose conditions take fresh samples). -/
def maybe_evict_if_needed (samples : Nat → Nat × Nat) (threshold : Nat)
    (cache : LruList) : LruList × Nat :=
  let s0 := samples 0
  if s0.1 * 100 / s0.2 ≥ threshold then evictLoop samples s0.2 threshold cache 1
  else (cache, 0)

-- ------------------------------------------------------------------
-- DurableStore, Local backend (`storage/local.rs`)
-- ------------------------------------------------------------------

/-- The base64 STANDARD alphabet character of a 6-bit index. -/
def b64Char (n : Nat) : Char :=
  if n < 26 then Char.ofNat (65 + n)
  else if n < 52 then Char.ofNat (97 + (n - 26))
  else if n < 62 then Char.ofNat (48 + (n - 52))
  else if n = 62 then '+'
  else '/'

/-- Inverse of `b64Char` on the alphabet; `none` for other characters. -/
def b64Index (c : Char) : Option Nat :=
  if 'A' ≤ c ∧ c ≤ 'Z' then some (c.toNat - 65)
  else if 'a' ≤ c ∧ c ≤ 'z' then some (c.toNat - 97 + 26)
  else if '0' ≤ c ∧ c ≤ '9' then some (c.toNat - 48 + 52)
  else if c = '+' then some 62
  else if c = '/' then some 63
  else none

/-- base64 STANDARD encoding (RFC 4648, with `=` padding), as
`base64::engine::general_purpose::STANDARD.encode`. -/
def b64Encode : ByteL → List Char
  | [] => []
  | [a] => [b64Char (a / 4), b64Char (a % 4 * 16), '=', '=']
  | [a, b] => [b64Char (a / 4), b64Char (a % 4 * 16 + b / 16), b64Char (b % 16 * 4), '=']
  | a :: b :: c :: rest =>
      b64Char (a / 4) :: b64Char (a % 4 * 16 + b / 16) ::
      b64Char (b % 16 * 4 + c / 64) :: b64Char (c % 64) :: b64Encode rest

/-- base64 STANDARD decoding; `none` on any malformed input, as
`STANDARD.decode`. -/
def b64Decode : List Char → Option ByteL
  | [] => some []
  | c1 :: c2 :: ['=', '='] => do
      let i1 ← b64Index c1
      let i2 ← b64Index c2
      if i2 % 16 = 0 then some [i1 * 4 + i2 / 16] else none
  | c1 :: c2 :: c3 :: ['='] => do
      let i1 ← b64Index c1
      let i2 ← b64Index c2
      let i3 ← b64Index c3
      if i3 % 4 = 0 then some [i1 * 4 + i2 / 16, i2 % 16 * 16 + i3 / 4] else none
  | c1 :: c2 :: c3 :: c4 :: rest => do
      let i1 ← b64Index c1
      let i2 ← b64Index c2
      let i3 ← b64Index c3
      let i4 ← b64Index c4
      let tail ← b64Decode rest
      some ((i1 * 4 + i2 / 16) :: (i2 % 16 * 16 + i3 / 4) :: (i3 % 4 * 64 + i4) :: tail)
  | _ => none

/-- `CachedBlob` (storage/local.rs): base64 body and headers. -/
structure CachedBlob where
  body : String
  headers : List (String × String)
  deriving Repr, DecidableEq

/-- The external serializer/compressor pair used by the Local backend:
`serde_json::to_vec`/`from_slice` on `CachedBlob` and the gzip
encoder/decoder of `flate2`.  The library calls are kept abstract; the
round-trip theorems take their inverse laws as hypotheses. -/
structure BlobCodec where
  jsonEnc : CachedBlob → ByteL
  jsonDec : ByteL → Option CachedBlob
  gzip : ByteL → ByteL
  gunzip : ByteL → Option ByteL

/-- The filesystem, as a partial map from paths to contents. -/
abbrev FileSys := String → Option ByteL

/-- `build_local_cache_path`: `storage/cache/<app_id>/<key>.gz`. -/
def build_local_cache_path (appId key : String) : String :=
  "storage/cache/" ++ appId ++ "/" ++ key ++ ".gz"

/-- `store_in_cache` (storage/local.rs): serialize, compress and write the
blob at the cache path. -/
def store_in_cache (codec : BlobCodec) (appId : String) (fs : FileSys)
    (key : String) (data : ByteL) (headers : List (String × String)) : FileSys :=
  let blob : CachedBlob := { body := ⟨b64Encode data⟩, headers := headers }
  let compressed := codec.gzip (codec.jsonEnc blob)
  fun p => if p = build_local_cache_path appId key then some compressed else fs p

/-- `load_from_cache` (storage/local.rs): read, decompress, parse, decode. -/
def load_from_cache (codec : BlobCodec) (appId : String) (fs : FileSys)
    (key : String) : Option (ByteL × List (String × String)) := do
  let compressed ← fs (build_local_cache_path appId key)
  let decompressed ← codec.gunzip compressed
  let blob ← codec.jsonDec decompressed
  let decoded ← b64Decode blob.body.data
  some (decoded, blob.headers)

-- ------------------------------------------------------------------
-- Config validation (`Config::from_file`, config.rs lines 139-186)
-- ------------------------------------------------------------------

/-- `StorageBackend`. -/
inductive StorageBackend where
  | gcs | s3 | azure | local
  deriving Repr, DecidableEq

/-- The parts of `Config` that `from_file` validates, plus
`refresh_percentage` (a u8). -/
structure ConfigModel where
  app_id : String
  gcs_bucket : String
  s3_bucket : String
  azure_container : String
  storage_backend : StorageBackend
  memory_threshold : Nat
  refresh_percentage : Nat

/-- ASCII whitespace, modelling the characters `str::trim` strips for our
ASCII configuration strings. -/
def isWhitespaceChar (c : Char) : Bool := c = ' ' || c = '\t' || c = '\n' || c = '\r'

/-- `str::trim`: strip whitespace from both ends. -/
def strTrim (s : String) : String :=
  ⟨((s.data.dropWhile isWhitespaceChar).reverse.dropWhile isWhitespaceChar).reverse⟩

/-- The validation performed by `Config::from_file` after parsing: the
selected backend's bucket/container must be non-blank, `app_id` non-blank,
and `memory_threshold` in 1..=100.  Nothing else is checked. -/
def configValid (c : ConfigModel) : Bool :=
  (match c.storage_backend with
   | .gcs => !(strTrim c.gcs_bucket == "")
   | .s3 => !(strTrim c.s3_bucket == "")
   | .azure => !(strTrim c.azure_container == "")
   | .local => true) &&
  !(strTrim c.app_id == "") &&
  !(c.memory_threshold == 0) && (c.memory_threshold ≤ 100)

-- ==================================================================
-- Theorems
-- ==================================================================

/-- C8: after `mark_latency_fail(u)` at time `t0`, `should_failover(u)` is
true at every instant less than 300 s later; in general it is true exactly
when an entry exists whose recorded breach instant is less than 300 s old,
and false otherwise (in particular when no breach was ever recorded). -/
theorem failover_open_window (m : LatencyMap) (u : String) (t0 t : Nat)
    (hmono : t0 ≤ t) (hwin : t - t0 < failoverWindowMs) :
    should_failover (mark_latency_fail m u t0) u t = true ∧
    (∀ (m2 : LatencyMap) (now : Nat),
       (should_failover m2 u now = true ↔
         ∃ ts, latencyLookup m2 u = some ts ∧ now - ts < failoverWindowMs)) := by
  constructor
  · simp [should_failover, mark_latency_fail, latencyLookup, hwin]
  · intro m2 now
    cases h : latencyLookup m2 u with
    | none => simp [should_failover, h]
    | some ts => simp [should_failover, h]

/-- Interior of the eviction loop: on return, the last taken memory sample
is below the threshold or the cache has drained to empty, and the surviving
cache is a suffix of the original (entries are only removed, oldest first). -/
theorem evictLoop_post (samples : Nat → Nat × Nat) (total threshold : Nat) :
    ∀ (cache : LruList) (i : Nat),
      ((samples (evictLoop samples total threshold cache i).2).1 * 100 / total < threshold ∨
        (evictLoop samples total threshold cache i).1 = []) ∧
      (evictLoop samples total threshold cache i).1 <:+ cache := by
  intro cache
  induction cache with
  | nil =>
      intro i
      unfold evictLoop
      by_cases h : (samples i).1 * 100 / total ≥ threshold
      · simp [h]
      · simp [h]
  | cons hd tl ih =>
      intro i
      unfold evictLoop
      by_cases h : (samples i).1 * 100 / total ≥ threshold
      · simp only [if_pos h]
        exact ⟨(ih (i + 1)).1, (ih (i + 1)).2.trans (List.suffix_cons hd tl)⟩
      · simp [h]
        omega

/-- C9: `maybe_evict_if_needed` terminates for every cache state and sample
sequence (it is a total function, defined by recursion on the finite cache);
on return either the memory-usage percentage of the last sample taken is
below the threshold or the cache has drained to empty, and the final cache
is a suffix of the initial one since each iteration removes only the
LRU-oldest entry.  `0 < total` mirrors the divisor of the Rust `u64`
division. -/
theorem maybe_evict_drains (samples : Nat → Nat × Nat) (threshold : Nat)
    (cache : LruList) (htotal : 0 < (samples 0).2) :
    ((samples (maybe_evict_if_needed samples threshold cache).2).1 * 100 / (samples 0).2 < threshold ∨
      (maybe_evict_if_needed samples threshold cache).1 = []) ∧
    (maybe_evict_if_needed samples threshold cache).1 <:+ cache := by
  unfold maybe_evict_if_needed
  by_cases h : (samples 0).1 * 100 / (samples 0).2 ≥ threshold
  · simp only [if_pos h]
    exact evictLoop_post samples (samples 0).2 threshold cache 1
  · simp [h]
    omega

/-- Applies `maybe_evict_drains` at a concrete sample stream and cache. -/
theorem maybe_evict_drains_witness :
    (((fun _ : Nat => ((90 : Nat), (100 : Nat)))
        (maybe_evict_if_needed (fun _ => (90, 100)) 80 [("k", ⟨[], [], 0⟩)]).2).1 * 100 /
          ((fun _ : Nat => ((90 : Nat), (100 : Nat))) 0).2 < 80 ∨
      (maybe_evict_if_needed (fun _ => (90, 100)) 80 [("k", ⟨[], [], 0⟩)]).1 = []) ∧
    (maybe_evict_if_needed (fun _ => (90, 100)) 80 [("k", ⟨[], [], 0⟩)]).1 <:+
      [("k", ⟨[], [], 0⟩)] :=
  maybe_evict_drains (fun _ => (90, 100)) 80 [("k", ⟨[], [], 0⟩)] (by decide)

/-- C10: for every `refresh_percentage` in 1..=100 the modulus
`100 / max(p, 1)` is at least 1, so `should_refresh` performs no remainder
by zero; but `Config::from_file` validation never examines
`refresh_percentage`, so a config with `refresh_percentage = 150` passes
validation, its modulus is 0, and the `counter % modulus` operation is a
remainder by zero (modelled as `none`, the Rust panic). -/
theorem refresh_percentage_unvalidated :
    (∀ p, 1 ≤ p → p ≤ 100 →
       1 ≤ refreshModulus p ∧
       ∀ cnt, shouldRefreshStep p cnt =
         some (cnt + 1, decide ((cnt + 1) % refreshModulus p = 0))) ∧
    (∃ c : ConfigModel, configValid c = true ∧ c.refresh_percentage = 150 ∧
       refreshModulus c.refresh_percentage = 0 ∧
       shouldRefreshStep c.refresh_percentage 0 = none) := by
  constructor
  · intro p h1 h100
    have hmaxp : max p 1 = p := by omega
    have hm : 1 ≤ refreshModulus p := by
      unfold refreshModulus
      rw [hmaxp]
      exact (Nat.one_le_div_iff (by omega)).2 h100
    refine ⟨hm, fun cnt => ?_⟩
    unfold shouldRefreshStep
    rw [if_neg (by omega), if_neg (by omega)]
  · exact ⟨⟨"app", "b", "b", "b", .local, 80, 150⟩, by decide, rfl, by decide, by decide⟩

/-- Applies `refresh_percentage_unvalidated` at `p = 10`, `cnt = 9`. -/
theorem refresh_percentage_unvalidated_witness :
    1 ≤ refreshModulus 10 ∧
    shouldRefreshStep 10 9 = some (10, decide (10 % refreshModulus 10 = 0)) :=
  ⟨(refresh_percentage_unvalidated.1 10 (by decide) (by decide)).1,
   (refresh_percentage_unvalidated.1 10 (by decide) (by decide)).2 9⟩

/-- Applies `failover_open_window` at a concrete map, URI and instants. -/
theorem failover_open_window_witness :
    should_failover (mark_latency_fail [] "/x" 5) "/x" 1000 = true ∧
    (∀ (m2 : LatencyMap) (now : Nat),
       (should_failover m2 "/x" now = true ↔
         ∃ ts, latencyLookup m2 "/x" = some ts ∧ now - ts < failoverWindowMs)) :=
  failover_open_window [] "/x" 5 1000 (by decide) (by decide)

/-- With a positive percentage whose modulus is non-zero, the counter after
`n` calls is `n` and the `n`-th decision tests `n % modulus = 0`. -/
theorem refreshTrace_formula (p : Nat) (hp : p ≠ 0) (hm : refreshModulus p ≠ 0) :
    ∀ n, refreshTrace p n = some (n, decide (n ≠ 0 ∧ n % refreshModulus p = 0)) := by
  intro n
  induction n with
  | zero => simp [refreshTrace]
  | succ k ihk =>
      rw [refreshTrace, ihk]
      simp only [shouldRefreshStep, hp, hm, if_false, reduceIte]
      simp [decide_eq_decide]

/-- C6: with `refresh_percentage = 0` every `should_refresh` call returns
false (and the counter stays 0); with `0 < p ≤ 100` the `n`-th call for a
fingerprint returns true exactly when `n` is a multiple of `⌊100/p⌋`, hence
true exactly once in every window of `⌊100/p⌋` consecutive calls. -/
theorem should_refresh_sampling :
    (∀ n, refreshTrace 0 n = some (0, false)) ∧
    (∀ p, 1 ≤ p → p ≤ 100 →
       (∀ n, 1 ≤ n → refreshResult p n = some (decide (n % refreshModulus p = 0))) ∧
       (∀ k, ∃! n, (k + 1 ≤ n ∧ n ≤ k + refreshModulus p) ∧
          refreshResult p n = some true)) := by
  constructor
  · intro n
    induction n with
    | zero => rfl
    | succ k ihk => rw [refreshTrace, ihk]; rfl
  · intro p h1 h100
    have hp : p ≠ 0 := by omega
    have hmaxp : max p 1 = p := by omega
    have hm1 : 1 ≤ refreshModulus p := by
      unfold refreshModulus
      rw [hmaxp]
      exact (Nat.one_le_div_iff (by omega)).2 h100
    have hm : refreshModulus p ≠ 0 := by omega
    have hres : ∀ n, 1 ≤ n →
        refreshResult p n = some (decide (n % refreshModulus p = 0)) := by
      intro n hn
      unfold refreshResult
      rw [refreshTrace_formula p hp hm n]
      have hiff : (n ≠ 0 ∧ n % refreshModulus p = 0) ↔ n % refreshModulus p = 0 :=
        ⟨fun h => h.2, fun h => ⟨by omega, h⟩⟩
      simp [hiff]
    refine ⟨hres, fun k => ?_⟩
    set m := refreshModulus p with hmdef
    have hklt : k % m < m := Nat.mod_lt _ (by omega)
    have hkle : k % m ≤ k := Nat.mod_le k m
    refine ⟨k + m - k % m, ⟨⟨by omega, by omega⟩, ?_⟩, ?_⟩
    · rw [hres (k + m - k % m) (by omega)]
      congr 1
      have hdm := Nat.div_add_mod k m
      have heq : k + m - k % m = m * (k / m + 1) := by
        rw [Nat.mul_add, Nat.mul_one]
        omega
      rw [heq, Nat.mul_mod_right]
      simp
    · rintro n' ⟨⟨hb1, hb2⟩, hval⟩
      rw [hres n' (by omega)] at hval
      have hmod : n' % m = 0 := by
        have := Option.some.inj hval
        exact of_decide_eq_true this
      obtain ⟨q', hq'⟩ := Nat.dvd_of_mod_eq_zero hmod
      have hn0 : k + m - k % m = m * (k / m + 1) := by
        have hdm := Nat.div_add_mod k m
        rw [Nat.mul_add, Nat.mul_one]
        omega
      rw [hq', hn0]
      have hq'eq : q' = k / m + 1 := by
        by_cases hlt : q' < k / m + 1
        · exfalso
          have hle : q' + 1 ≤ k / m + 1 := by omega
          have : m * q' + m ≤ m * (k / m) + m := by
            have := Nat.mul_le_mul_left m (by omega : q' ≤ k / m)
            omega
          have hdm := Nat.div_add_mod k m
          omega
        · by_cases hgt : k / m + 1 < q'
          · exfalso
            have : m * (k / m + 1 + 1) ≤ m * q' := Nat.mul_le_mul_left m (by omega)
            have hdm := Nat.div_add_mod k m
            rw [Nat.mul_add, Nat.mul_add, Nat.mul_one] at this
            omega
          · omega
      rw [hq'eq]

/-- Applies `should_refresh_sampling` at `p = 10`: the 20th call refreshes,
and in the window of calls 5..14 exactly one call refreshes. -/
theorem should_refresh_sampling_witness :
    refreshTrace 0 7 = some (0, false) ∧
    refreshResult 10 20 = some (decide (20 % refreshModulus 10 = 0)) ∧
    (∃! n, (4 + 1 ≤ n ∧ n ≤ 4 + refreshModulus 10) ∧ refreshResult 10 n = some true) :=
  ⟨should_refresh_sampling.1 7,
   (should_refresh_sampling.2 10 (by decide) (by decide)).1 20 (by decide),
   (should_refresh_sampling.2 10 (by decide) (by decide)).2 4⟩

/-- The condition of the failover branch of `proxy_handler`:
`should_failover(&uri) && !force_refresh`. -/
def failoverBranch (env : ProxyEnv) : Bool :=
  should_failover env.latencyMap env.uri env.t0 &&
    !(env.refreshOracle || should_bypass_cache env.headers)

/-- The outcome of the Ok-arm of the origin call inside `proxy_handler`
(proxy.rs lines 159-235), as a standalone function. -/
def originOutcome (env : ProxyEnv) (resp : OriginResp) : ProxyOutcome :=
  let key := fingerprint env.uri env.headers env.ignored
  let bypassCache := should_bypass_cache env.headers
  let t1 := env.t0 + env.elapsedMs
  let exceededLatency := decide (env.elapsedMs > env.thresholdMs)
  let map1 := if exceededLatency then mark_latency_fail env.latencyMap env.uri t1
              else env.latencyMap
  let respHeaders := removeContentLength resp.headers
  let isSuccess := decide (200 ≤ resp.status) && decide (resp.status < 300)
  let fallbackActive := should_failover map1 env.uri t1
  let doStore := !bypassCache && (isSuccess && (exceededLatency || !fallbackActive))
  { response := .fromOrigin resp.status respHeaders resp.body
    hotInserts := if doStore then [(key, ⟨resp.body, respHeaders, env.wallNow⟩)] else []
    persistSends := if doStore then [(key, resp.body, respHeaders)] else []
    durableConsulted := false
    latencyMap := map1 }

/-- In the failover branch, `proxy_handler` is `try_cache`. -/
theorem proxy_handler_failover_eq (env : ProxyEnv)
    (hc : failoverBranch env = true) :
    proxy_handler env = try_cache env (fingerprint env.uri env.headers env.ignored) := by
  have hc' := hc
  simp only [failoverBranch] at hc'
  simp only [proxy_handler, hc']
  simp

/-- Outside the failover branch, with a permit and an origin response,
`proxy_handler` is the Ok-arm outcome. -/
theorem proxy_handler_origin_eq (env : ProxyEnv) (resp : OriginResp)
    (hc : failoverBranch env = false) (hs : env.semAvailable = true)
    (hf : env.forward = some resp) :
    proxy_handler env = originOutcome env resp := by
  have hc' := hc
  simp only [failoverBranch] at hc'
  simp only [proxy_handler, originOutcome, hc', hs, hf]
  simp

/-- Outside the failover branch, with a permit but a failed origin call,
`proxy_handler` is `try_cache`. -/
theorem proxy_handler_err_eq (env : ProxyEnv)
    (hc : failoverBranch env = false) (hs : env.semAvailable = true)
    (hf : env.forward = none) :
    proxy_handler env = try_cache env (fingerprint env.uri env.headers env.ignored) := by
  have hc' := hc
  simp only [failoverBranch] at hc'
  simp only [proxy_handler, hc', hs, hf]
  simp

/-- When admission is rejected and the hot cache hits, `proxy_handler`
serves the cached copy with no effects. -/
theorem proxy_handler_sat_hit (env : ProxyEnv) (c : CachedResponse)
    (hc : failoverBranch env = false) (hs : env.semAvailable = false)
    (hmem : env.mem (fingerprint env.uri env.headers env.ignored) = some c) :
    proxy_handler env =
      { response := build_response c.body c.headers
        hotInserts := []
        persistSends := []
        durableConsulted := false
        latencyMap := env.latencyMap } := by
  have hc' := hc
  simp only [failoverBranch] at hc'
  simp only [proxy_handler, hc', hs, hmem]
  simp

/-- When admission is rejected and the hot cache misses, `proxy_handler`
answers the literal 502 with no effects. -/
theorem proxy_handler_sat_miss (env : ProxyEnv)
    (hc : failoverBranch env = false) (hs : env.semAvailable = false)
    (hmem : env.mem (fingerprint env.uri env.headers env.ignored) = none) :
    proxy_handler env =
      { response := .engine502 "Too many concurrent requests and no cache available"
        hotInserts := []
        persistSends := []
        durableConsulted := false
        latencyMap := env.latencyMap } := by
  have hc' := hc
  simp only [failoverBranch] at hc'
  simp only [proxy_handler, hc', hs, hmem]
  simp

/-- `try_cache` on a memory hit. -/
theorem try_cache_mem_hit (env : ProxyEnv) (key : String) (c : CachedResponse)
    (hmem : env.mem key = some c) :
    try_cache env key =
      { response := build_response c.body c.headers
        hotInserts := []
        persistSends := []
        durableConsulted := false
        latencyMap := env.latencyMap } := by
  simp only [try_cache, hmem]

/-- `try_cache` on a memory miss and a durable hit: the durable entry is
promoted into the hot cache. -/
theorem try_cache_durable_hit (env : ProxyEnv) (key : String) (b : ByteL)
    (hs : List (String × String)) (hmem : env.mem key = none)
    (hdur : env.durable key = some (b, hs)) :
    try_cache env key =
      { response := build_response b hs
        hotInserts := [(key, ⟨b, hs, env.wallNow⟩)]
        persistSends := []
        durableConsulted := true
        latencyMap := env.latencyMap } := by
  simp only [try_cache, hmem, hdur]

/-- `try_cache` on misses in both tiers. -/
theorem try_cache_miss (env : ProxyEnv) (key : String)
    (hmem : env.mem key = none) (hdur : env.durable key = none) :
    try_cache env key =
      { response := .engine502 "Downstream error and no cache"
        hotInserts := []
        persistSends := []
        durableConsulted := true
        latencyMap := env.latencyMap } := by
  simp only [try_cache, hmem, hdur]

/-- C4: the engine itself builds a 502 response in exactly two cases: the
admission-rejected branch with a hot-cache miss (with its literal body, and
without consulting the durable tier), and the cache-fallback path (failover
branch or origin error) with misses in both tiers (with its literal body). -/
theorem engine_502_cases (env : ProxyEnv) (msg : String) :
    ((proxy_handler env).response = .engine502 msg ↔
      ((msg = "Too many concurrent requests and no cache available" ∧
        failoverBranch env = false ∧
        env.semAvailable = false ∧
        env.mem (fingerprint env.uri env.headers env.ignored) = none) ∨
       (msg = "Downstream error and no cache" ∧
        (failoverBranch env = true ∨
         (env.semAvailable = true ∧ env.forward = none)) ∧
        env.mem (fingerprint env.uri env.headers env.ignored) = none ∧
        env.durable (fingerprint env.uri env.headers env.ignored) = none))) ∧
    ((failoverBranch env = false ∧ env.semAvailable = false) →
      (proxy_handler env).durableConsulted = false) := by
  constructor
  · cases hfb : failoverBranch env with
    | true =>
        cases hmem : env.mem (fingerprint env.uri env.headers env.ignored) with
        | some c =>
            rw [proxy_handler_failover_eq env hfb, try_cache_mem_hit env _ c hmem]
            simp [build_response, hfb, hmem]
        | none =>
            cases hdur : env.durable (fingerprint env.uri env.headers env.ignored) with
            | some d =>
                rw [proxy_handler_failover_eq env hfb,
                    try_cache_durable_hit env _ d.1 d.2 hmem (by rw [hdur])]
                simp [build_response, hfb, hmem, hdur]
            | none =>
                rw [proxy_handler_failover_eq env hfb, try_cache_miss env _ hmem hdur]
                simp [hfb, hmem, hdur, @eq_comm String msg]
    | false =>
        cases hsem : env.semAvailable with
        | true =>
            cases hfw : env.forward with
            | some resp =>
                rw [proxy_handler_origin_eq env resp hfb hsem hfw]
                simp [originOutcome, hfb, hsem, hfw]
            | none =>
                cases hmem : env.mem (fingerprint env.uri env.headers env.ignored) with
                | some c =>
                    rw [proxy_handler_err_eq env hfb hsem hfw, try_cache_mem_hit env _ c hmem]
                    simp [build_response, hfb, hsem, hmem]
                | none =>
                    cases hdur : env.durable (fingerprint env.uri env.headers env.ignored) with
                    | some d =>
                        rw [proxy_handler_err_eq env hfb hsem hfw,
                            try_cache_durable_hit env _ d.1 d.2 hmem (by rw [hdur])]
                        simp [build_response, hfb, hsem, hmem, hdur]
                    | none =>
                        rw [proxy_handler_err_eq env hfb hsem hfw, try_cache_miss env _ hmem hdur]
                        simp [hfb, hsem, hfw, hmem, hdur, @eq_comm String msg]
        | false =>
            cases hmem : env.mem (fingerprint env.uri env.headers env.ignored) with
            | some c =>
                rw [proxy_handler_sat_hit env c hfb hsem hmem]
                simp [build_response, hfb, hsem, hmem]
            | none =>
                rw [proxy_handler_sat_miss env hfb hsem hmem]
                simp [hfb, hsem, hmem, @eq_comm String msg]
  · rintro ⟨h1, h2⟩
    cases hmem : env.mem (fingerprint env.uri env.headers env.ignored) with
    | some c => rw [proxy_handler_sat_hit env c h1 h2 hmem]
    | none => rw [proxy_handler_sat_miss env h1 h2 hmem]

/-- A saturated environment: no failover entry, semaphore exhausted, empty
hot cache and durable tier. -/
def saturatedEnv : ProxyEnv where
  uri := "/q"
  headers := []
  ignored := ignored_headers_set []
  refreshOracle := false
  semAvailable := false
  forward := none
  elapsedMs := 0
  thresholdMs := 0
  latencyMap := []
  t0 := 0
  wallNow := 0
  mem := fun _ => none
  durable := fun _ => none

/-- Applies `engine_502_cases` in a saturated environment with an empty hot
cache: the engine answers the admission-rejected 502 and does not consult
the durable tier. -/
theorem engine_502_cases_witness :
    (proxy_handler saturatedEnv).response =
      .engine502 "Too many concurrent requests and no cache available" ∧
    (proxy_handler saturatedEnv).durableConsulted = false :=
  ⟨(engine_502_cases saturatedEnv
      "Too many concurrent requests and no cache available").1.2
      (Or.inl ⟨rfl, by decide, rfl, rfl⟩),
   (engine_502_cases saturatedEnv
      "Too many concurrent requests and no cache available").2 ⟨by decide, rfl⟩⟩

/-- C3: for a request that reaches the origin and obtains a response, the
`MEMORY_CACHE` insert and the persistence-queue send happen exactly when the
status is 2xx, bypass is off, and either this call breached its latency
threshold or the circuit for the URI is not open. -/
theorem store_requires_success (env : ProxyEnv) (resp : OriginResp)
    (hc : failoverBranch env = false) (hs : env.semAvailable = true)
    (hf : env.forward = some resp) :
    (((proxy_handler env).hotInserts ≠ [] ∨ (proxy_handler env).persistSends ≠ []) ↔
      (should_bypass_cache env.headers = false ∧
       (200 ≤ resp.status ∧ resp.status < 300) ∧
       (env.thresholdMs < env.elapsedMs ∨
        should_failover env.latencyMap env.uri (env.t0 + env.elapsedMs) = false))) := by
  rw [proxy_handler_origin_eq env resp hc hs hf]
  simp only [originOutcome, gt_iff_lt]
  by_cases hex : env.thresholdMs < env.elapsedMs <;>
    by_cases hbp : should_bypass_cache env.headers = true <;>
      by_cases h2 : 200 ≤ resp.status <;>
        by_cases h3 : resp.status < 300 <;>
          by_cases hso : should_failover env.latencyMap env.uri (env.t0 + env.elapsedMs) = true <;>
            simp [hex, hbp, h2, h3, hso]

/-- The environment of a fast, successful origin call with no circuit
entry. -/
def freshOriginEnv : ProxyEnv where
  uri := "/x"
  headers := []
  ignored := ignored_headers_set []
  refreshOracle := false
  semAvailable := true
  forward := some ⟨200, [("content-type", "text/plain")], [104, 105]⟩
  elapsedMs := 10
  thresholdMs := 100
  latencyMap := []
  t0 := 0
  wallNow := 0
  mem := fun _ => none
  durable := fun _ => none

/-- Applies `store_requires_success` to a fast 200 response. -/
theorem store_requires_success_witness :
    (((proxy_handler freshOriginEnv).hotInserts ≠ [] ∨
       (proxy_handler freshOriginEnv).persistSends ≠ []) ↔
      (should_bypass_cache freshOriginEnv.headers = false ∧
       (200 ≤ (200 : Nat) ∧ (200 : Nat) < 300) ∧
       (freshOriginEnv.thresholdMs < freshOriginEnv.elapsedMs ∨
        should_failover freshOriginEnv.latencyMap freshOriginEnv.uri
          (freshOriginEnv.t0 + freshOriginEnv.elapsedMs) = false))) :=
  store_requires_success freshOriginEnv ⟨200, [("content-type", "text/plain")], [104, 105]⟩
    (by decide) rfl rfl

/-- A bypass request whose origin call fails while the durable tier holds
the fingerprint. -/
def bypassEnv : ProxyEnv where
  uri := "/a"
  headers := [("x-bypass-cache", "true")]
  ignored := ignored_headers_set []
  refreshOracle := false
  semAvailable := true
  forward := none
  elapsedMs := 0
  thresholdMs := 0
  latencyMap := []
  t0 := 0
  wallNow := 0
  mem := fun _ => none
  durable := fun _ => some ([104], [("content-type", "text/plain")])

/-- C2 is false as stated: on a bypass request whose origin call fails,
`try_cache` promotes the durable hit into `MEMORY_CACHE`, so the HotCache
is written for that request. -/
theorem bypass_writes_hotcache_counterexample :
    should_bypass_cache bypassEnv.headers = true ∧
    (proxy_handler bypassEnv).hotInserts ≠ [] := by
  constructor
  · decide
  · decide

/-- C2 (amended): a bypass request never sends to the persistence queue and
never stores its origin response in `MEMORY_CACHE`; the only possible
HotCache write is the promotion of an existing durable entry performed by
the cache-fallback path when the origin call fails. -/
theorem bypass_no_store (env : ProxyEnv)
    (hb : should_bypass_cache env.headers = true) :
    (proxy_handler env).persistSends = [] ∧
    ((proxy_handler env).hotInserts = [] ∨
      (env.semAvailable = true ∧ env.forward = none ∧
       env.mem (fingerprint env.uri env.headers env.ignored) = none ∧
       ∃ b hdrs, env.durable (fingerprint env.uri env.headers env.ignored) = some (b, hdrs) ∧
         (proxy_handler env).hotInserts =
           [(fingerprint env.uri env.headers env.ignored, ⟨b, hdrs, env.wallNow⟩)])) := by
  have hc : failoverBranch env = false := by simp [failoverBranch, hb]
  cases hsem : env.semAvailable with
  | false =>
      cases hmem : env.mem (fingerprint env.uri env.headers env.ignored) with
      | some c => rw [proxy_handler_sat_hit env c hc hsem hmem]; exact ⟨rfl, Or.inl rfl⟩
      | none => rw [proxy_handler_sat_miss env hc hsem hmem]; exact ⟨rfl, Or.inl rfl⟩
  | true =>
      cases hfw : env.forward with
      | some resp =>
          rw [proxy_handler_origin_eq env resp hc hsem hfw]
          simp only [originOutcome]
          simp [hb]
      | none =>
          cases hmem : env.mem (fingerprint env.uri env.headers env.ignored) with
          | some c => rw [proxy_handler_err_eq env hc hsem hfw, try_cache_mem_hit env _ c hmem]
                      exact ⟨rfl, Or.inl rfl⟩
          | none =>
              cases hdur : env.durable (fingerprint env.uri env.headers env.ignored) with
              | some d =>
                  obtain ⟨b, hdrs⟩ := d
                  rw [proxy_handler_err_eq env hc hsem hfw,
                      try_cache_durable_hit env _ b hdrs hmem hdur]
                  exact ⟨rfl, Or.inr ⟨rfl, rfl, rfl, b, hdrs, rfl, rfl⟩⟩
              | none =>
                  rw [proxy_handler_err_eq env hc hsem hfw, try_cache_miss env _ hmem hdur]
                  exact ⟨rfl, Or.inl rfl⟩

/-- Applies `bypass_no_store` to the bypass environment above. -/
theorem bypass_no_store_witness :
    (proxy_handler bypassEnv).persistSends = [] ∧
    ((proxy_handler bypassEnv).hotInserts = [] ∨
      (bypassEnv.semAvailable = true ∧ bypassEnv.forward = none ∧
       bypassEnv.mem (fingerprint bypassEnv.uri bypassEnv.headers bypassEnv.ignored) = none ∧
       ∃ b hdrs,
         bypassEnv.durable (fingerprint bypassEnv.uri bypassEnv.headers bypassEnv.ignored) =
           some (b, hdrs) ∧
         (proxy_handler bypassEnv).hotInserts =
           [(fingerprint bypassEnv.uri bypassEnv.headers bypassEnv.ignored,
             ⟨b, hdrs, bypassEnv.wallNow⟩)])) :=
  bypass_no_store bypassEnv (by decide)

/-- Lowering an uppercase letter yields its code point plus 32. -/
theorem asciiLowerChar_toNat_of_upper (c : Char) (h1 : 'A' ≤ c) (h2 : c ≤ 'Z') :
    (Char.ofNat (c.toNat + 32)).toNat = c.toNat + 32 := by
  have h65 : 65 ≤ c.toNat := h1
  have h90 : c.toNat ≤ 90 := h2
  have hv : (c.toNat + 32).isValidChar := by
    left
    omega
  rw [Char.ofNat, dif_pos hv]
  rfl

/-- ASCII lowering of a character is idempotent. -/
theorem asciiLowerChar_idem (c : Char) :
    asciiLowerChar (asciiLowerChar c) = asciiLowerChar c := by
  unfold asciiLowerChar
  by_cases h : 'A' ≤ c ∧ c ≤ 'Z'
  · rw [if_pos h, if_neg ?_]
    rintro ⟨ha, hb⟩
    have h65 : 65 ≤ c.toNat := h.1
    have htn := asciiLowerChar_toNat_of_upper c h.1 h.2
    have hb' : (Char.ofNat (c.toNat + 32)).toNat ≤ 90 := hb
    rw [htn] at hb'
    omega
  · rw [if_neg h, if_neg h]

/-- ASCII lowering of a string is idempotent. -/
theorem asciiLower_idem (s : String) : asciiLower (asciiLower s) = asciiLower s := by
  unfold asciiLower
  simp [List.map_map, Function.comp_def, asciiLowerChar_idem]

/-- Every member of the ignored-header set is already lowercase. -/
theorem mem_ignored_lower (cfg : List String) (h : String)
    (hm : h ∈ ignored_headers_set cfg) : asciiLower h = h := by
  simp only [ignored_headers_set, List.mem_cons, List.mem_map] at hm
  rcases hm with rfl | rfl | rfl | ⟨c, _, rfl⟩
  · decide
  · decide
  · decide
  · exact asciiLower_idem c

/-- Inserting a header whose lowered name is ignored leaves the normalized
header list unchanged. -/
theorem headersKv_ignored_drop (ignored : List String) (l1 l2 : List (String × String))
    (h v : String) (hmem : ignored.contains (asciiLower h) = true) :
    headersKv ignored (l1 ++ (h, v) :: l2) = headersKv ignored (l1 ++ l2) := by
  have hm' : asciiLower h ∈ ignored := by simpa using hmem
  unfold headersKv
  rw [List.filter_append, List.filter_append, List.filter_cons]
  simp [hmem, hm']

/-- C7: the ignored set always contains the three built-in header names,
and adding a header whose name is in the ignored set (at any position, with
any value) never changes the fingerprint; removing it or changing its value
are the same fact read in the other direction or applied twice. -/
theorem ignored_headers_zero_influence :
    (∀ cfg : List String,
       "x-bypass-cache" ∈ ignored_headers_set cfg ∧
       "x-refresh-cache" ∈ ignored_headers_set cfg ∧
       "cache-control" ∈ ignored_headers_set cfg) ∧
    (∀ (h v uri : String) (cfg : List String) (l1 l2 : List (String × String)),
       h ∈ ignored_headers_set cfg →
       fingerprint uri (l1 ++ (h, v) :: l2) (ignored_headers_set cfg) =
         fingerprint uri (l1 ++ l2) (ignored_headers_set cfg)) := by
  constructor
  · intro cfg
    refine ⟨?_, ?_, ?_⟩ <;> simp [ignored_headers_set]
  · intro h v uri cfg l1 l2 hmem
    have hcont : (ignored_headers_set cfg).contains (asciiLower h) = true := by
      rw [mem_ignored_lower cfg h hmem]
      exact List.elem_eq_true_of_mem hmem
    unfold fingerprint mkKeySource
    rw [headersKv_ignored_drop _ _ _ _ _ hcont]

/-- Applies `ignored_headers_zero_influence`: inserting a `cache-control`
header does not change a concrete fingerprint. -/
theorem ignored_headers_zero_influence_witness :
    "cache-control" ∈ ignored_headers_set [] ∧
    fingerprint "/x" ([("a", "1")] ++ ("cache-control", "no-cache") :: [])
        (ignored_headers_set []) =
      fingerprint "/x" ([("a", "1")] ++ []) (ignored_headers_set []) :=
  ⟨(ignored_headers_zero_influence.1 []).2.2,
   ignored_headers_zero_influence.2 "cache-control" "no-cache" "/x" [] [("a", "1")] []
     (by simp [ignored_headers_set])⟩

/-- Characters with equal code points are equal. -/
theorem charToNat_inj {a b : Char} (h : a.toNat = b.toNat) : a = b :=
  Char.ext (UInt32.ext h)

/-- `charListLe` is total. -/
theorem charListLe_total : ∀ (x y : List Char),
    charListLe x y = true ∨ charListLe y x = true
  | [], [] => Or.inl rfl
  | [], _ :: _ => Or.inl rfl
  | _ :: _, [] => Or.inr rfl
  | a :: as, b :: bs => by
      by_cases h1 : a.toNat < b.toNat
      · left
        simp [charListLe, h1]
      · by_cases h2 : b.toNat < a.toNat
        · right
          simp [charListLe, h2]
        · rcases charListLe_total as bs with h | h
          · left
            simp [charListLe, h1, h2, h]
          · right
            simp [charListLe, h1, h2, h]

/-- `charListLe` is transitive. -/
theorem charListLe_trans : ∀ (x y z : List Char),
    charListLe x y = true → charListLe y z = true → charListLe x z = true
  | [], _, _, _, _ => rfl
  | _ :: _, [], _, h1, _ => by simp [charListLe] at h1
  | _ :: _, _ :: _, [], _, h2 => by simp [charListLe] at h2
  | a :: as, b :: bs, c :: cs, h1, h2 => by
      simp only [charListLe] at h1 h2 ⊢
      by_cases hab : a.toNat < b.toNat
      · rw [if_pos hab] at h1
        by_cases hbc : b.toNat < c.toNat
        · rw [if_pos (by omega)]
        · by_cases hcb : c.toNat < b.toNat
          · rw [if_neg hbc, if_pos hcb] at h2
            simp at h2
          · rw [if_pos (by omega)]
      · by_cases hba : b.toNat < a.toNat
        · rw [if_neg hab, if_pos hba] at h1
          simp at h1
        · rw [if_neg hab, if_neg hba] at h1
          by_cases hbc : b.toNat < c.toNat
          · rw [if_pos (by omega)]
          · by_cases hcb : c.toNat < b.toNat
            · rw [if_neg hbc, if_pos hcb] at h2
              simp at h2
            · rw [if_neg hbc, if_neg hcb] at h2
              rw [if_neg (by omega), if_neg (by omega)]
              exact charListLe_trans as bs cs h1 h2

/-- `charListLe` is antisymmetric. -/
theorem charListLe_antisymm : ∀ (x y : List Char),
    charListLe x y = true → charListLe y x = true → x = y
  | [], [], _, _ => rfl
  | [], _ :: _, _, h2 => by simp [charListLe] at h2
  | _ :: _, [], h1, _ => by simp [charListLe] at h1
  | a :: as, b :: bs, h1, h2 => by
      simp only [charListLe] at h1 h2
      by_cases hab : a.toNat < b.toNat
      · rw [if_neg (by omega), if_pos hab] at h2
        simp at h2
      · by_cases hba : b.toNat < a.toNat
        · rw [if_neg hab, if_pos hba] at h1
          simp at h1
        · rw [if_neg hab, if_neg hba] at h1
          rw [if_neg hba, if_neg hab] at h2
          have hcs : a = b := charToNat_inj (by omega)
          rw [hcs, charListLe_antisymm as bs h1 h2]

/-- `strLe` is antisymmetric on strings. -/
theorem strLe_antisymm {s t : String} (h1 : strLe s t = true)
    (h2 : strLe t s = true) : s = t :=
  String.ext (charListLe_antisymm s.data t.data h1 h2)

instance : IsTotal (String × String) hdrLe :=
  ⟨fun a b => charListLe_total a.1.data b.1.data⟩

instance : IsTrans (String × String) hdrLe :=
  ⟨fun _ _ _ h1 h2 => charListLe_trans _ _ _ h1 h2⟩

/-- The header sort is sorted under the name comparator. -/
theorem sortHeaders_sorted (l : List (String × String)) :
    List.Sorted hdrLe (sortHeaders l) :=
  List.sorted_insertionSort hdrLe l

/-- The header sort is a permutation of its input. -/
theorem sortHeaders_perm (l : List (String × String)) :
    (sortHeaders l).Perm l :=
  List.perm_insertionSort hdrLe l

/-- Two sorted-by-name permutations of each other with pairwise-distinct
names are equal: sorting by name alone has a unique result when no name
repeats. -/
theorem eq_of_perm_sorted_nodup_fst :
    ∀ (l1 l2 : List (String × String)), l1.Perm l2 →
      List.Sorted hdrLe l1 → List.Sorted hdrLe l2 →
      (l1.map Prod.fst).Nodup → l1 = l2 := by
  intro l1
  induction l1 with
  | nil =>
      intro l2 hp _ _ _
      exact hp.nil_eq
  | cons a t1 ih =>
      intro l2 hp hs1 hs2 hn
      cases l2 with
      | nil => exact absurd hp.eq_nil (by simp)
      | cons b t2 =>
          have hnodup2 : ((b :: t2).map Prod.fst).Nodup :=
            ((hp.map Prod.fst).nodup_iff).mp hn
          have hab : a = b := by
            have ha : a ∈ b :: t2 := hp.subset (List.mem_cons_self a t1)
            rcases List.mem_cons.mp ha with h | ha2
            · exact h
            · have hb : b ∈ a :: t1 := hp.symm.subset (List.mem_cons_self b t2)
              rcases List.mem_cons.mp hb with h | hb2
              · exact h.symm
              · have h1 : hdrLe a b := (List.sorted_cons.mp hs1).1 b hb2
                have h2 : hdrLe b a := (List.sorted_cons.mp hs2).1 a ha2
                have hname : a.1 = b.1 := strLe_antisymm h1 h2
                exfalso
                have : b.1 ∈ t2.map Prod.fst := by
                  rw [← hname]
                  exact List.mem_map_of_mem Prod.fst ha2
                exact (List.nodup_cons.mp hnodup2).1 this
          subst hab
          have hp2 : t1.Perm t2 := hp.cons_inv
          have := ih t2 hp2 (List.sorted_cons.mp hs1).2 (List.sorted_cons.mp hs2).2
            (List.nodup_cons.mp hn).2
          rw [this]

/-- The name-lowering of one header pair. -/
def lowerPair (kv : String × String) : String × String := (asciiLower kv.1, kv.2)

/-- The normalized header list is the filter of the name-lowered list. -/
theorem headersKv_eq (ignored : List String) (l : List (String × String)) :
    headersKv ignored l =
      (l.map lowerPair).filter (fun kv => !(ignored.contains kv.1)) := by
  unfold headersKv
  rw [List.map_filter lowerPair l]
  rfl

/-- C1 (amended): two requests with the same URI whose header lists differ
only by reordering pairs or changing the ASCII case of names (that is, their
name-lowered pair lists are permutations of each other) produce equal
fingerprints, provided the retained lowercase names are pairwise distinct;
the derivation sorts the filtered pairs stably by name only (not by name
then value), so same-name headers keep their relative order. -/
theorem fingerprint_reorder_case_invariant
    (uri : String) (ignored : List String) (H1 H2 : List (String × String))
    (hperm : (H1.map lowerPair).Perm (H2.map lowerPair))
    (hnodup : ((headersKv ignored H1).map Prod.fst).Nodup) :
    fingerprint uri H1 ignored = fingerprint uri H2 ignored := by
  have hfp : (headersKv ignored H1).Perm (headersKv ignored H2) := by
    rw [headersKv_eq, headersKv_eq]
    exact hperm.filter _
  have hperm2 : (sortHeaders (headersKv ignored H1)).Perm
      (sortHeaders (headersKv ignored H2)) :=
    (sortHeaders_perm _).trans (hfp.trans (sortHeaders_perm _).symm)
  have hns : ((sortHeaders (headersKv ignored H1)).map Prod.fst).Nodup :=
    (((sortHeaders_perm _).map Prod.fst).nodup_iff).mpr hnodup
  have heq := eq_of_perm_sorted_nodup_fst _ _ hperm2
    (sortHeaders_sorted _) (sortHeaders_sorted _) hns
  unfold fingerprint mkKeySource
  rw [heq]

/-- C1 is false as stated: with two headers sharing the name `a`, swapping
them is a permutation of the same multiset, yet the stable name-only sort
keeps their relative order and the fingerprints differ. -/
theorem fingerprint_reorder_counterexample :
    ([(("a" : String), ("1" : String)), ("a", "2")]).Perm [("a", "2"), ("a", "1")] ∧
    fingerprint "u" [("a", "1"), ("a", "2")] (ignored_headers_set []) ≠
      fingerprint "u" [("a", "2"), ("a", "1")] (ignored_headers_set []) := by
  constructor
  · decide
  · decide

/-- Applies `fingerprint_reorder_case_invariant`: reordering two
distinct-name headers and changing the case of a name leaves the
fingerprint unchanged. -/
theorem fingerprint_reorder_case_invariant_witness :
    ((([(("B" : String), ("2" : String)), ("a", "1")]).map lowerPair).Perm
      (([(("a" : String), ("1" : String)), ("b", "2")]).map lowerPair)) ∧
    ((headersKv (ignored_headers_set []) [("B", "2"), ("a", "1")]).map Prod.fst).Nodup ∧
    fingerprint "/w" [("B", "2"), ("a", "1")] (ignored_headers_set []) =
      fingerprint "/w" [("a", "1"), ("b", "2")] (ignored_headers_set []) :=
  ⟨by decide, by decide,
   fingerprint_reorder_case_invariant "/w" (ignored_headers_set [])
     [("B", "2"), ("a", "1")] [("a", "1"), ("b", "2")] (by decide) (by decide)⟩

/-- Decoding inverts the base64 alphabet map on 6-bit values. -/
theorem b64Index_b64Char : ∀ n < 64, b64Index (b64Char n) = some n := by decide

/-- The base64 alphabet never contains the padding character. -/
theorem b64Char_ne_pad : ∀ n < 64, b64Char n ≠ '=' := by decide

/-- `STANDARD.decode` inverts `STANDARD.encode` on byte sequences. -/
theorem b64_roundtrip : ∀ (l : ByteL), (∀ x ∈ l, x < 256) →
    b64Decode (b64Encode l) = some l
  | [], _ => rfl
  | [a], h => by
      have ha : a < 256 := h a (by simp)
      have h1 := b64Index_b64Char (a / 4) (by omega)
      have h2 := b64Index_b64Char (a % 4 * 16) (by omega)
      show b64Decode [b64Char (a / 4), b64Char (a % 4 * 16), '=', '='] = some [a]
      simp [b64Decode, h1, h2, Nat.mul_mod_left]
      omega
  | [a, b], h => by
      have ha : a < 256 := h a (by simp)
      have hb : b < 256 := h b (by simp)
      have h1 := b64Index_b64Char (a / 4) (by omega)
      have h2 := b64Index_b64Char (a % 4 * 16 + b / 16) (by omega)
      have h3 := b64Index_b64Char (b % 16 * 4) (by omega)
      have hp3 := b64Char_ne_pad (b % 16 * 4) (by omega)
      show b64Decode [b64Char (a / 4), b64Char (a % 4 * 16 + b / 16),
        b64Char (b % 16 * 4), '='] = some [a, b]
      unfold b64Decode
      split
      · rename_i heq
        simp at heq
      · rename_i heq
        simp only [List.cons.injEq] at heq
        exact absurd heq.2.2.1 hp3
      · rename_i heq
        simp only [List.cons.injEq, and_true] at heq
        simp_all [Nat.mul_mod_left]
        omega
      · rename_i hne heq
        simp only [List.cons.injEq] at heq
        obtain ⟨e1, e2, e3, e4, e5⟩ := heq
        exact (hne e4.symm e5.symm).elim
      · rename_i h3ne h4ne
        exact (h3ne _ _ _ rfl).elim
  | a :: b :: c :: rest, h => by
      have ha : a < 256 := h a (by simp)
      have hb : b < 256 := h b (by simp)
      have hcn : c < 256 := h c (by simp)
      have ih := b64_roundtrip rest (fun x hx => h x (by simp [hx]))
      have h1 := b64Index_b64Char (a / 4) (by omega)
      have h2 := b64Index_b64Char (a % 4 * 16 + b / 16) (by omega)
      have h3 := b64Index_b64Char (b % 16 * 4 + c / 64) (by omega)
      have h4 := b64Index_b64Char (c % 64) (by omega)
      have hp3 := b64Char_ne_pad (b % 16 * 4 + c / 64) (by omega)
      have hp4 := b64Char_ne_pad (c % 64) (by omega)
      show b64Decode (b64Char (a / 4) :: b64Char (a % 4 * 16 + b / 16) ::
        b64Char (b % 16 * 4 + c / 64) :: b64Char (c % 64) :: b64Encode rest) =
        some (a :: b :: c :: rest)
      unfold b64Decode
      split
      · rename_i heq
        simp at heq
      · rename_i heq
        simp only [List.cons.injEq] at heq
        exact absurd heq.2.2.1 hp3
      · rename_i heq
        simp only [List.cons.injEq] at heq
        exact absurd heq.2.2.2.1 hp4
      · rename_i heq
        simp only [List.cons.injEq, and_true] at heq
        simp_all [Nat.mul_mod_left]
        omega
      · rename_i hne
        exact (hne _ _ _ _ _ rfl).elim

/-- C5: for the Local backend, storing `(body, headers)` under `fp` writes
the gzip-compressed JSON blob (base64 body, headers) at
`storage/cache/<app_id>/<fp>.gz`, and loading `fp` from the resulting
filesystem returns the original pair.  The `serde_json` and `flate2`
library codecs are abstract; their inverse laws at the stored value are
hypotheses. -/
theorem local_store_load_roundtrip (codec : BlobCodec) (appId : String)
    (fs : FileSys) (fp : String) (body : ByteL) (headers : List (String × String))
    (hbytes : ∀ x ∈ body, x < 256)
    (hlower : ∀ kv ∈ headers, asciiLower kv.1 = kv.1)
    (hnocl : ∀ kv ∈ headers, kv.1 ≠ "content-length")
    (hjson : codec.jsonDec (codec.jsonEnc ⟨⟨b64Encode body⟩, headers⟩) =
      some ⟨⟨b64Encode body⟩, headers⟩)
    (hgzip : codec.gunzip (codec.gzip (codec.jsonEnc ⟨⟨b64Encode body⟩, headers⟩)) =
      some (codec.jsonEnc ⟨⟨b64Encode body⟩, headers⟩)) :
    store_in_cache codec appId fs fp body headers (build_local_cache_path appId fp) =
      some (codec.gzip (codec.jsonEnc ⟨⟨b64Encode body⟩, headers⟩)) ∧
    load_from_cache codec appId (store_in_cache codec appId fs fp body headers) fp =
      some (body, headers) := by
  constructor
  · unfold store_in_cache
    simp
  · unfold load_from_cache store_in_cache
    simp only [if_pos rfl, if_true, Option.bind_eq_bind, Option.some_bind]
    rw [hgzip]
    simp only [Option.some_bind]
    rw [hjson]
    simp only [Option.some_bind]
    rw [b64_roundtrip body hbytes]
    rfl

/-- A trivial codec for the round-trip witness: the JSON layer maps every
blob to the empty byte list and decodes it back to the concrete blob being
stored; compression is the identity. -/
def trivCodec : BlobCodec where
  jsonEnc := fun _ => []
  jsonDec := fun _ => some ⟨⟨b64Encode [104, 105]⟩, [("content-type", "a")]⟩
  gzip := fun d => d
  gunzip := fun d => some d

/-- Applies `local_store_load_roundtrip` at a concrete body and headers. -/
theorem local_store_load_roundtrip_witness :
    store_in_cache trivCodec "app" (fun _ => none) "fp" [104, 105]
        [("content-type", "a")] (build_local_cache_path "app" "fp") =
      some (trivCodec.gzip (trivCodec.jsonEnc
        ⟨⟨b64Encode [104, 105]⟩, [("content-type", "a")]⟩)) ∧
    load_from_cache trivCodec "app"
        (store_in_cache trivCodec "app" (fun _ => none) "fp" [104, 105]
          [("content-type", "a")]) "fp" =
      some ([104, 105], [("content-type", "a")]) :=
  local_store_load_roundtrip trivCodec "app" (fun _ => none) "fp" [104, 105]
    [("content-type", "a")] (by decide) (by decide) (by decide) rfl rfl

end CacheBolt
